import Mathlib

/-
Verification of the track-resampling / time-projection core of the bike
weather app (src/public/app.js), as a shallow embedding in Lean 4.

Modelling conventions:
* JavaScript numbers are modelled as rationals (ℚ); timestamps are
  rationals counting milliseconds since the Unix epoch (`Date.getTime`).
* The single JS value whose NaN behaviour is load-bearing for an analysed
  claim is the sampling interval, so the interval is modelled by `JsNum`
  (a rational or NaN), with JS comparison semantics: any comparison
  against NaN is false, and NaN propagates through addition.  Division by
  zero in ℚ yields 0 (JS yields ±Infinity); no theorem below depends on
  the value of a division whose divisor may be zero — only on lengths and
  on list structure, which agree with the JS semantics.
* Leaflet's `latLng(...).distanceTo(...)` is an external collaborator and
  is passed to `processGPX` as an explicit function argument.
* The `while` loop of `samplePointsByDistance` is embedded as structural
  recursion on a fuel counter; the wrapper supplies fuel that dominates
  the loop's iteration count (offsets 0, i, 2i, … bounded by the total
  distance), so the embedding computes the same list the JS loop does.
-/

namespace BikeWeather

/-- A raw geographic point as handed to the track loader. -/
structure GeoPoint where
  lat : ℚ
  lon : ℚ
deriving DecidableEq

/-- A track point as built by `processGPX` (object literal
`{ lat, lon, cumulativeDistance }` in app.js); `samplePointsByDistance`
emits values of the same shape. -/
structure TrackPoint where
  lat : ℚ
  lon : ℚ
  cumulativeDistance : ℚ
deriving DecidableEq

/-- The object literal `{ lat, lon, time }` returned by
`calculateTimedPoints` in app.js.  Note: the code's literal has exactly
these three fields — `cumulativeDistance` is not among them. -/
structure TimedPoint where
  lat : ℚ
  lon : ℚ
  time : ℚ
deriving DecidableEq

/-- The data a weather lookup yields for one point (the three fields the
loop of `fetchWeatherData` reads out of the response). -/
structure WeatherSample where
  temp : ℚ
  wind : ℚ
  code : ℤ
deriving DecidableEq

/-- The object literal `{ ...point, temp, wind, code }` pushed by
`fetchWeatherData`: the spread of a `TimedPoint` plus the sample fields. -/
structure WeatherPoint where
  lat : ℚ
  lon : ℚ
  time : ℚ
  temp : ℚ
  wind : ℚ
  code : ℤ
deriving DecidableEq

/-- A JS number that is either an actual (rational) number or NaN. -/
inductive JsNum where
  | num (q : ℚ)
  | nan
deriving DecidableEq

/-- JS `<=` on numbers: false whenever either side is NaN. -/
def jsLe : JsNum → JsNum → Bool
  | JsNum.num a, JsNum.num b => decide (a ≤ b)
  | _, _ => false

/-- JS `+` on numbers: NaN propagates. -/
def jsAdd : JsNum → JsNum → JsNum
  | JsNum.num a, JsNum.num b => JsNum.num (a + b)
  | _, _ => JsNum.nan

/-- The body of the `forEach` in `processGPX` for indices ≥ 1: each point
adds the distance from the previous coordinates to the running cumulative
distance and is pushed with that value. -/
def processGPXAux (dist : GeoPoint → GeoPoint → ℚ) :
    List GeoPoint → GeoPoint → ℚ → List TrackPoint
  | [], _, _ => []
  | pt :: rest, prevCoords, cumulativeDistance =>
    let cum2 := cumulativeDistance + dist pt prevCoords
    { lat := pt.lat, lon := pt.lon, cumulativeDistance := cum2 } ::
      processGPXAux dist rest pt cum2

/-- Function `processGPX` from app.js: walks the parsed track points accumulating
cumulative path distance, starting at 0, with the distance function
(Leaflet's `distanceTo`) passed explicitly.  For an empty input the
`forEach` body never runs and the empty `points` array is returned. -/
def processGPX (dist : GeoPoint → GeoPoint → ℚ) (trackPoints : List GeoPoint) :
    List TrackPoint :=
  match trackPoints with
  | [] => []
  | pt :: rest =>
    { lat := pt.lat, lon := pt.lon, cumulativeDistance := 0 } ::
      processGPXAux dist rest pt 0

/-- Index of the first element satisfying the predicate.  This embeds the
pair `points.find(...)` / `points.indexOf(nextPoint)` of app.js: `find`
returns the first satisfying element and `indexOf` (reference equality in
JS) recovers exactly its index. -/
def findFirstIdx (p : TrackPoint → Bool) : List TrackPoint → Option Nat
  | [] => none
  | x :: xs => if p x then some 0 else (findFirstIdx p xs).map (fun i => i + 1)

/-- The point pushed by one iteration of the sampling loop: the located
point verbatim when its cumulative distance equals the current offset or
it is the track's first point, otherwise the linear interpolation between
the immediately preceding point and it.  (The JS pushes inside each
branch; the pushed element is factored out here so each iteration is
`sampled ++ [emitPoint …]`.)  The `none` fallback for `points[idx - 1]?`
is unreachable when `idx` is a found in-bounds index, mirroring the JS
array access that cannot yield `undefined` there. -/
def emitPoint (points : List TrackPoint) (currentInterval : ℚ) (idx : Nat)
    (nextPoint : TrackPoint) : TrackPoint :=
  if nextPoint.cumulativeDistance = currentInterval ∨ idx = 0 then nextPoint
  else
    match points[idx - 1]? with
    | none => nextPoint
    | some prevPoint =>
      let ratio := (currentInterval - prevPoint.cumulativeDistance) /
        (nextPoint.cumulativeDistance - prevPoint.cumulativeDistance)
      { lat := prevPoint.lat + (nextPoint.lat - prevPoint.lat) * ratio,
        lon := prevPoint.lon + (nextPoint.lon - prevPoint.lon) * ratio,
        cumulativeDistance := currentInterval }

/-- The `while (currentInterval <= totalDistance)` loop of
`samplePointsByDistance`, with fuel.  A NaN `currentInterval` fails the
loop guard (JS: `NaN <= totalDistance` is false), so the loop exits. -/
def sampleLoop (points : List TrackPoint) (totalDistance : ℚ)
    (intervalMeters : JsNum) :
    Nat → JsNum → List TrackPoint → List TrackPoint
  | 0, _, sampled => sampled
  | _ + 1, JsNum.nan, sampled => sampled
  | fuel + 1, JsNum.num currentInterval, sampled =>
    if currentInterval ≤ totalDistance then
      match findFirstIdx (fun p => decide (currentInterval ≤ p.cumulativeDistance)) points with
      | none => sampled
      | some idx =>
        match points[idx]? with
        | none => sampled
        | some nextPoint =>
          sampleLoop points totalDistance intervalMeters fuel
            (jsAdd (JsNum.num currentInterval) intervalMeters)
            (sampled ++ [emitPoint points currentInterval idx nextPoint])
    else sampled

/-- Fuel dominating the iteration count of the sampling loop: with a
positive interval q the loop visits offsets 0, q, 2q, … ≤ total, i.e. at
most ⌊total/q⌋ + 1 iterations plus the final failing guard check; with a
NaN interval the loop body runs exactly once. -/
def sampleFuel (totalDistance : ℚ) (intervalMeters : JsNum) : Nat :=
  match intervalMeters with
  | JsNum.nan => 2
  | JsNum.num q => (Int.floor (totalDistance / q)).toNat + 2

/-- Function `samplePointsByDistance` from app.js.  Guard: empty input or
`intervalMeters <= 0` (false for NaN!) returns the input unchanged.
Otherwise run the offset loop and then append the final track point when
the emitted list is empty or ends strictly before the total distance. -/
def samplePointsByDistance (points : List TrackPoint) (intervalMeters : JsNum) :
    List TrackPoint :=
  if points.length = 0 ∨ jsLe intervalMeters (JsNum.num 0) = true then points
  else
    match points.getLast? with
    | none => points
    | some lastPoint =>
      let totalDistance := lastPoint.cumulativeDistance
      let sampled := sampleLoop points totalDistance intervalMeters
        (sampleFuel totalDistance intervalMeters) (JsNum.num 0) []
      match sampled.getLast? with
      | none => sampled ++ [lastPoint]
      | some s =>
        if s.cumulativeDistance < totalDistance then sampled ++ [lastPoint]
        else sampled

/-- Function `calculateTimedPoints` from app.js: maps each sampled point to
`{ lat, lon, time }` with
`time = startTime.getTime() + (cumulativeDistance / 1000 / avgSpeed) * 3600000`
milliseconds.  There is no validation of `avgSpeed` anywhere in the
function. -/
def calculateTimedPoints (points : List TrackPoint) (startTime : ℚ)
    (avgSpeed : ℚ) : List TimedPoint :=
  points.map fun point =>
    { lat := point.lat, lon := point.lon,
      time := startTime + point.cumulativeDistance / 1000 / avgSpeed * 3600000 }

/-- The per-point loop of `fetchWeatherData` from app.js, with the
external fetch/parse/index step abstracted as an injected lookup (per the
spec's external-interface contract): a thrown error anywhere in the `try`
block is `none`, a successful read of the three hourly fields is `some`.
On success the spread `{ ...point, temp, wind, code }` is pushed; on
failure the error is logged and the loop continues with the next point. -/
def fetchWeatherData (lookup : TimedPoint → Option WeatherSample) :
    List TimedPoint → List WeatherPoint
  | [] => []
  | point :: rest =>
    match lookup point with
    | some data =>
      { lat := point.lat, lon := point.lon, time := point.time,
        temp := data.temp, wind := data.wind, code := data.code } ::
        fetchWeatherData lookup rest
    | none => fetchWeatherData lookup rest

/-- Concrete five-point input for the weather annotator scenario. -/
def demoTimedPoints : List TimedPoint :=
  [⟨0, 0, 0⟩, ⟨1, 1, 1⟩, ⟨2, 2, 2⟩, ⟨3, 3, 3⟩, ⟨4, 4, 4⟩]

/-- A lookup that fails exactly on the point at index 2 of
`demoTimedPoints` and succeeds with a fixed sample everywhere else. -/
def demoLookup : TimedPoint → Option WeatherSample :=
  fun p => if p.lat = 2 then none else some ⟨20, 5, 1⟩

/-- The weather loop is the input restricted to lookup successes, each
merged with its sample, in order. -/
theorem fetchWeatherData_eq_filterMap (lookup : TimedPoint → Option WeatherSample)
    (points : List TimedPoint) :
    fetchWeatherData lookup points =
      points.filterMap (fun point => (lookup point).map (fun data =>
        { lat := point.lat, lon := point.lon, time := point.time,
          temp := data.temp, wind := data.wind, code := data.code })) := by
  induction points with
  | nil => rfl
  | cons point rest ih =>
    rw [fetchWeatherData, List.filterMap_cons]
    cases lookup point with
    | none => simpa using ih
    | some data => simpa using ih

/-- Unfolding of the sampler wrapper on a non-empty track and a positive
interval: the guard fails, the loop runs with the wrapper's fuel, and the
post-step appends the final point when the loop's output is empty or ends
strictly short of the total distance. -/
theorem samplePointsByDistance_eq (points : List TrackPoint)
    (lastPoint : TrackPoint) (q : ℚ)
    (hlast : points.getLast? = some lastPoint) (hne : points ≠ [])
    (hq : 0 < q) (L : List TrackPoint)
    (hL : L = sampleLoop points lastPoint.cumulativeDistance (JsNum.num q)
      (sampleFuel lastPoint.cumulativeDistance (JsNum.num q)) (JsNum.num 0) []) :
    samplePointsByDistance points (JsNum.num q) =
      match L.getLast? with
      | none => L ++ [lastPoint]
      | some s =>
        if s.cumulativeDistance < lastPoint.cumulativeDistance then L ++ [lastPoint]
        else L := by
  have hguard : ¬(points.length = 0 ∨ jsLe (JsNum.num q) (JsNum.num 0) = true) := by
    rintro (h1 | h2)
    · exact hne (List.length_eq_zero.mp h1)
    · rw [jsLe, decide_eq_true_eq] at h2
      exact absurd h2 (not_le.mpr hq)
  rw [samplePointsByDistance, if_neg hguard, hlast, hL]

/-- One guard-failing step of the sampling loop: once the current offset
exceeds the total distance the loop returns the accumulator, whatever
fuel remains. -/
theorem sampleLoop_gt_total (points : List TrackPoint) (total q c : ℚ)
    (hgt : total < c) (fuel : Nat) (sampled : List TrackPoint) :
    sampleLoop points total (JsNum.num q) fuel (JsNum.num c) sampled = sampled := by
  cases fuel with
  | zero => rfl
  | succ n =>
    rw [sampleLoop, if_neg (not_le.mpr hgt)]

/-- First iteration of the sampling loop on a track whose first point has
cumulative distance 0: offset 0 locates the first point, which is emitted
verbatim, and the offset advances to the interval. -/
theorem sampleLoop_first_step (p0 : TrackPoint) (rest : List TrackPoint)
    (total q : ℚ) (h0 : p0.cumulativeDistance = 0) (htot : 0 ≤ total)
    (fuel : Nat) :
    sampleLoop (p0 :: rest) total (JsNum.num q) (fuel + 1) (JsNum.num 0) [] =
      sampleLoop (p0 :: rest) total (JsNum.num q) fuel (JsNum.num q) [p0] := by
  rw [sampleLoop, if_pos htot]
  simp [findFirstIdx, emitPoint, h0, jsAdd]

/-- Specification of `findFirstIdx`: a found index is in bounds and its
element satisfies the predicate. -/
theorem findFirstIdx_eq_some (p : TrackPoint → Bool) :
    ∀ (l : List TrackPoint) (i : Nat), findFirstIdx p l = some i →
      ∃ a, l[i]? = some a ∧ p a = true
  | [], i, h => by simp [findFirstIdx] at h
  | x :: xs, i, h => by
    rw [findFirstIdx] at h
    by_cases hx : p x = true
    · rw [if_pos hx] at h
      injection h with h
      subst h
      exact ⟨x, by simp, hx⟩
    · rw [if_neg hx] at h
      obtain ⟨j, hfi, hij⟩ := Option.map_eq_some'.mp h
      subst hij
      obtain ⟨a, ha, hpa⟩ := findFirstIdx_eq_some p xs j hfi
      exact ⟨a, by simpa using ha, hpa⟩

/-- In a list that is `Pairwise R` for a reflexive `R`, every element is
related to the last element. -/
theorem pairwise_getLast_rel {R : TrackPoint → TrackPoint → Prop}
    (hrefl : ∀ a, R a a) :
    ∀ (l : List TrackPoint) (lp : TrackPoint), l.Pairwise R →
      l.getLast? = some lp → ∀ p ∈ l, R p lp
  | [], lp, _, hlast, p, hp => by simp at hlast
  | [a], lp, _, hlast, p, hp => by
    simp only [List.getLast?_singleton, Option.some.injEq] at hlast
    simp only [List.mem_singleton] at hp
    subst hlast
    subst hp
    exact hrefl _
  | a :: b :: t, lp, hpw, hlast, p, hp => by
    rw [List.getLast?_cons_cons] at hlast
    rcases List.pairwise_cons.mp hpw with ⟨ha, hpw2⟩
    rcases List.mem_cons.mp hp with rfl | hp2
    · exact ha lp (List.mem_of_getLast?_eq_some hlast)
    · exact pairwise_getLast_rel hrefl (b :: t) lp hpw2 hlast p hp2

/-- An emitted point never exceeds the total distance: the verbatim cases
emit a track point (bounded by hypothesis), the interpolated case emits a
point whose cumulative distance is the current offset, which the loop
guard bounds by the total. -/
theorem emitPoint_cum_le (points : List TrackPoint) (total c : ℚ) (idx : Nat)
    (nextPoint : TrackPoint) (hc : c ≤ total)
    (hnext : nextPoint.cumulativeDistance ≤ total) :
    (emitPoint points c idx nextPoint).cumulativeDistance ≤ total := by
  rw [emitPoint]
  split
  · exact hnext
  · split
    · exact hnext
    · exact hc

/-- On a track whose first point sits at cumulative distance 0, the point
emitted for a non-negative offset located at a found index has cumulative
distance exactly equal to the offset. -/
theorem emitPoint_cum_eq (points : List TrackPoint) (c : ℚ) (idx : Nat)
    (nextPoint : TrackPoint) (h0c : 0 ≤ c)
    (hget : points[idx]? = some nextPoint)
    (hpred : c ≤ nextPoint.cumulativeDistance)
    (hfirst : ∀ p, points[0]? = some p → p.cumulativeDistance = 0) :
    (emitPoint points c idx nextPoint).cumulativeDistance = c := by
  rw [emitPoint]
  split
  · next hcond =>
    rcases hcond with hcum | hidx
    · exact hcum
    · subst hidx
      have h1 : nextPoint.cumulativeDistance = 0 := hfirst nextPoint hget
      have h2 : c = 0 := le_antisymm (h1 ▸ hpred) h0c
      rw [h1, h2]
  · next hcond =>
    have hidx : idx ≠ 0 := fun h => hcond (Or.inr h)
    split
    · next hprev =>
      exfalso
      have hlen : idx < points.length := by
        rcases List.getElem?_eq_some_iff.mp hget with ⟨h, _⟩
        exact h
      rw [List.getElem?_eq_none_iff] at hprev
      omega
    · rfl

/-- Every element of the loop's output is bounded by the total distance,
provided the accumulator and all track points are. -/
theorem sampleLoop_cum_le (points : List TrackPoint) (total : ℚ) (iv : JsNum)
    (hmax : ∀ p ∈ points, p.cumulativeDistance ≤ total) :
    ∀ (fuel : Nat) (ci : JsNum) (sampled : List TrackPoint),
      (∀ x ∈ sampled, x.cumulativeDistance ≤ total) →
      ∀ x ∈ sampleLoop points total iv fuel ci sampled,
        x.cumulativeDistance ≤ total := by
  intro fuel
  induction fuel with
  | zero =>
    intro ci sampled hs x hx
    rw [sampleLoop] at hx
    exact hs x hx
  | succ n ih =>
    intro ci sampled hs x hx
    cases ci with
    | nan =>
      rw [sampleLoop] at hx
      exact hs x hx
    | num c =>
      rw [sampleLoop] at hx
      by_cases hc : c ≤ total
      · rw [if_pos hc] at hx
        cases hfi : findFirstIdx (fun p => decide (c ≤ p.cumulativeDistance)) points with
        | none =>
          simp only [hfi] at hx
          exact hs x hx
        | some idx =>
          simp only [hfi] at hx
          cases hget : points[idx]? with
          | none =>
            simp only [hget] at hx
            exact hs x hx
          | some nextPoint =>
            simp only [hget] at hx
            refine ih _ _ ?_ x hx
            intro y hy
            rcases List.mem_append.mp hy with hy | hy
            · exact hs y hy
            · rcases List.mem_singleton.mp hy with rfl
              exact emitPoint_cum_le points total c idx nextPoint hc
                (hmax _ (List.getElem?_mem hget))
      · rw [if_neg hc] at hx
        exact hs x hx

/-- Strict monotonicity invariant of the sampling loop: on a track whose
first point has cumulative distance 0 and with a positive interval, each
iteration emits a point at exactly the current offset, and offsets grow
strictly, so the accumulated output stays strictly increasing in
cumulative distance. -/
theorem sampleLoop_pairwise (points : List TrackPoint) (total q : ℚ)
    (hq : 0 < q)
    (hfirst : ∀ p, points[0]? = some p → p.cumulativeDistance = 0) :
    ∀ (fuel : Nat) (c : ℚ) (sampled : List TrackPoint), 0 ≤ c →
      sampled.Pairwise (fun a b => a.cumulativeDistance < b.cumulativeDistance) →
      (∀ x ∈ sampled, x.cumulativeDistance < c) →
      (sampleLoop points total (JsNum.num q) fuel (JsNum.num c) sampled).Pairwise
        (fun a b => a.cumulativeDistance < b.cumulativeDistance) := by
  intro fuel
  induction fuel with
  | zero =>
    intro c sampled h0c hpw hlt
    rw [sampleLoop]
    exact hpw
  | succ n ih =>
    intro c sampled h0c hpw hlt
    rw [sampleLoop]
    split
    · split
      · exact hpw
      · split
        · exact hpw
        · rename_i idx hfi xopt nextPoint hget
          have hpred : c ≤ nextPoint.cumulativeDistance := by
            obtain ⟨a, ha, hpa⟩ := findFirstIdx_eq_some _ points idx hfi
            rw [hget, Option.some.injEq] at ha
            subst ha
            exact of_decide_eq_true hpa
          have hcum : (emitPoint points c idx nextPoint).cumulativeDistance = c :=
            emitPoint_cum_eq points c idx nextPoint h0c hget hpred hfirst
          have hstep : (JsNum.num (c + q)) = jsAdd (JsNum.num c) (JsNum.num q) := rfl
          rw [← hstep]
          refine ih (c + q) (sampled ++ [emitPoint points c idx nextPoint]) ?_ ?_ ?_
          · linarith
          · rw [List.pairwise_append]
            refine ⟨hpw, by simp, ?_⟩
            intro a ha b hb
            rcases List.mem_singleton.mp hb with rfl
            rw [hcum]
            exact hlt a ha
          · intro x hx
            rcases List.mem_append.mp hx with hx | hx
            · exact (hlt x hx).trans (lt_add_of_pos_right c hq)
            · rcases List.mem_singleton.mp hx with rfl
              rw [hcum]
              exact lt_add_of_pos_right c hq
    · exact hpw

/-- C6: for every non-empty track with non-decreasing cumulative
distances and every positive interval, the sampler's output is non-empty
and contains a point whose cumulative distance equals the track's final
cumulative distance: the loop can only emit points at or below the total,
and the post-step appends the final point whenever the loop's output is
empty or falls short of it. -/
theorem samplePointsByDistance_endpoint (points : List TrackPoint)
    (lastPoint : TrackPoint) (q : ℚ)
    (hlast : points.getLast? = some lastPoint)
    (hpw : points.Pairwise (fun a b => a.cumulativeDistance ≤ b.cumulativeDistance))
    (hq : 0 < q) :
    samplePointsByDistance points (JsNum.num q) ≠ [] ∧
      ∃ x ∈ samplePointsByDistance points (JsNum.num q),
        x.cumulativeDistance = lastPoint.cumulativeDistance := by
  have hne : points ≠ [] := fun h => by simp [h] at hlast
  have hmax : ∀ p ∈ points, p.cumulativeDistance ≤ lastPoint.cumulativeDistance :=
    pairwise_getLast_rel (fun a => le_refl a.cumulativeDistance) points lastPoint
      hpw hlast
  rw [samplePointsByDistance_eq points lastPoint q hlast hne hq _ rfl]
  split
  · exact ⟨by simp, lastPoint, by simp, rfl⟩
  · rename_i s hL
    split
    · exact ⟨by simp, lastPoint, by simp, rfl⟩
    · rename_i hs
      have hsmem := List.mem_of_getLast?_eq_some hL
      have hle : s.cumulativeDistance ≤ lastPoint.cumulativeDistance :=
        sampleLoop_cum_le points lastPoint.cumulativeDistance (JsNum.num q) hmax
          _ _ [] (by simp) s hsmem
      refine ⟨?_, s, hsmem, le_antisymm hle (not_lt.mp hs)⟩
      intro h
      rw [h] at hL
      simp at hL

/-- Witness for C6 on a two-point track with total distance 500 and
interval 300 (which does not divide the total). -/
theorem samplePointsByDistance_endpoint_witness :
    (([(⟨0, 0, 0⟩ : TrackPoint), ⟨1, 1, 500⟩].getLast? = some ⟨1, 1, 500⟩) ∧
        ([(⟨0, 0, 0⟩ : TrackPoint), ⟨1, 1, 500⟩].Pairwise
          (fun a b => a.cumulativeDistance ≤ b.cumulativeDistance)) ∧
        (0 : ℚ) < 300) ∧
      (samplePointsByDistance [⟨0, 0, 0⟩, ⟨1, 1, 500⟩] (JsNum.num 300) ≠ [] ∧
        ∃ x ∈ samplePointsByDistance [⟨0, 0, 0⟩, ⟨1, 1, 500⟩] (JsNum.num 300),
          x.cumulativeDistance = (⟨1, 1, 500⟩ : TrackPoint).cumulativeDistance) :=
  ⟨⟨rfl, by norm_num [List.pairwise_cons], by norm_num⟩,
    samplePointsByDistance_endpoint [⟨0, 0, 0⟩, ⟨1, 1, 500⟩] ⟨1, 1, 500⟩ 300
      rfl (by norm_num [List.pairwise_cons]) (by norm_num)⟩

/-- C10: for every track satisfying the Track invariant (first point at
cumulative distance 0, non-decreasing cumulative distances) and every
positive interval, the cumulative distances of the sampler's output are
strictly increasing: every loop emission carries exactly the strictly
increasing current offset, and the post-step appends the final point only
when it lies strictly beyond the last emission. -/
theorem samplePointsByDistance_strict_mono (points : List TrackPoint)
    (lastPoint : TrackPoint) (q : ℚ)
    (hlast : points.getLast? = some lastPoint)
    (hfirst : ∀ p, points[0]? = some p → p.cumulativeDistance = 0)
    (hpw : points.Pairwise (fun a b => a.cumulativeDistance ≤ b.cumulativeDistance))
    (hq : 0 < q) :
    (samplePointsByDistance points (JsNum.num q)).Pairwise
      (fun a b => a.cumulativeDistance < b.cumulativeDistance) := by
  have hne : points ≠ [] := fun h => by simp [h] at hlast
  rw [samplePointsByDistance_eq points lastPoint q hlast hne hq _ rfl]
  have hLpw := sampleLoop_pairwise points lastPoint.cumulativeDistance q hq hfirst
    (sampleFuel lastPoint.cumulativeDistance (JsNum.num q)) 0 [] le_rfl
    (by simp) (by simp)
  split
  · rename_i hL
    rw [List.getLast?_eq_none_iff] at hL
    rw [hL]
    simp
  · rename_i s hL
    split
    · rename_i hs
      rw [List.pairwise_append]
      refine ⟨hLpw, by simp, ?_⟩
      intro a ha b hb
      rcases List.mem_singleton.mp hb with rfl
      have hale : a.cumulativeDistance ≤ s.cumulativeDistance :=
        pairwise_getLast_rel (fun x => le_refl x.cumulativeDistance) _ s
          (hLpw.imp (fun h => le_of_lt h)) hL a ha
      exact lt_of_le_of_lt hale hs
    · exact hLpw

/-- Witness for C10 on a two-point track satisfying the Track invariant,
with interval 300. -/
theorem samplePointsByDistance_strict_mono_witness :
    (([(⟨0, 0, 0⟩ : TrackPoint), ⟨1, 1, 500⟩].getLast? = some ⟨1, 1, 500⟩) ∧
        (∀ p : TrackPoint, [(⟨0, 0, 0⟩ : TrackPoint), ⟨1, 1, 500⟩][0]? = some p →
          p.cumulativeDistance = 0) ∧
        ([(⟨0, 0, 0⟩ : TrackPoint), ⟨1, 1, 500⟩].Pairwise
          (fun a b => a.cumulativeDistance ≤ b.cumulativeDistance)) ∧
        (0 : ℚ) < 300) ∧
      (samplePointsByDistance [⟨0, 0, 0⟩, ⟨1, 1, 500⟩] (JsNum.num 300)).Pairwise
        (fun a b => a.cumulativeDistance < b.cumulativeDistance) :=
  ⟨⟨rfl,
      fun p hp => by
        simp only [List.getElem?_cons_zero, Option.some.injEq] at hp
        subst hp
        rfl,
      by norm_num [List.pairwise_cons], by norm_num⟩,
    samplePointsByDistance_strict_mono [⟨0, 0, 0⟩, ⟨1, 1, 500⟩] ⟨1, 1, 500⟩ 300
      rfl
      (fun p hp => by
        simp only [List.getElem?_cons_zero, Option.some.injEq] at hp
        subst hp
        rfl)
      (by norm_num [List.pairwise_cons]) (by norm_num)⟩

/-- C4 (counterexample): for the single-point track (total distance 0)
and interval 1 (> total), the sampler returns one point, not two — the
lone point is emitted by the offset-0 iteration and the post-step does
not duplicate it. -/
theorem samplePointsByDistance_single_point :
    (samplePointsByDistance [(⟨0, 0, 0⟩ : TrackPoint)] (JsNum.num 1)).length = 1 := by
  have hloop : sampleLoop [(⟨0, 0, 0⟩ : TrackPoint)] 0 (JsNum.num 1)
      (sampleFuel 0 (JsNum.num 1)) (JsNum.num 0) [] = [⟨0, 0, 0⟩] := by
    rw [sampleFuel,
      show (Int.floor ((0 : ℚ) / 1)).toNat + 2 =
        ((Int.floor ((0 : ℚ) / 1)).toNat + 1) + 1 from rfl,
      sampleLoop_first_step _ _ _ _ rfl le_rfl]
    exact sampleLoop_gt_total _ _ _ _ (by norm_num) _ _
  have h := samplePointsByDistance_eq [⟨0, 0, 0⟩] ⟨0, 0, 0⟩ 1 rfl
    (by simp) one_pos _ rfl
  rw [h]
  dsimp only
  rw [hloop]
  simp

/-- C4 (amended): for every track whose first point has cumulative
distance 0 and whose final cumulative distance is strictly positive (so
the track spans at least two distinct offsets), and every interval
strictly greater than the total distance, the sampler returns exactly two
points: the track's first point and its last point.  (The original claim
fails for a single-point track, where the output has one point.) -/
theorem samplePointsByDistance_large_interval (p0 : TrackPoint)
    (rest : List TrackPoint) (lastPoint : TrackPoint) (q : ℚ)
    (h0 : p0.cumulativeDistance = 0)
    (hlast : (p0 :: rest).getLast? = some lastPoint)
    (hpos : 0 < lastPoint.cumulativeDistance)
    (hgt : lastPoint.cumulativeDistance < q) :
    samplePointsByDistance (p0 :: rest) (JsNum.num q) = [p0, lastPoint] := by
  have hq : 0 < q := hpos.trans hgt
  have hloop : sampleLoop (p0 :: rest) lastPoint.cumulativeDistance (JsNum.num q)
      (sampleFuel lastPoint.cumulativeDistance (JsNum.num q)) (JsNum.num 0) [] = [p0] := by
    rw [sampleFuel,
      show (Int.floor (lastPoint.cumulativeDistance / q)).toNat + 2 =
        ((Int.floor (lastPoint.cumulativeDistance / q)).toNat + 1) + 1 from rfl,
      sampleLoop_first_step _ _ _ _ h0 hpos.le]
    exact sampleLoop_gt_total _ _ _ _ hgt _ _
  have h := samplePointsByDistance_eq (p0 :: rest) lastPoint q hlast
    (by simp) hq _ rfl
  rw [h, hloop]
  simp [h0, hpos]

/-- Witness for the amended C4 on a concrete two-point track with total
distance 10 and interval 100. -/
theorem samplePointsByDistance_large_interval_witness :
    ((⟨0, 0, 0⟩ : TrackPoint).cumulativeDistance = 0 ∧
        ([(⟨0, 0, 0⟩ : TrackPoint), ⟨1, 1, 10⟩].getLast? = some ⟨1, 1, 10⟩) ∧
        (0 : ℚ) < (⟨1, 1, 10⟩ : TrackPoint).cumulativeDistance ∧
        (⟨1, 1, 10⟩ : TrackPoint).cumulativeDistance < 100) ∧
      samplePointsByDistance [⟨0, 0, 0⟩, ⟨1, 1, 10⟩] (JsNum.num 100) =
        [⟨0, 0, 0⟩, ⟨1, 1, 10⟩] :=
  ⟨⟨rfl, rfl, by norm_num, by norm_num⟩,
    samplePointsByDistance_large_interval ⟨0, 0, 0⟩ [⟨1, 1, 10⟩] ⟨1, 1, 10⟩ 100
      rfl rfl (by norm_num) (by norm_num)⟩

/-- C7: on a three-point track at cumulative distances [0, 500, 1200] and
interval 1000, the sampler emits exactly the offsets [0, 1000, 1200]: the
first point verbatim (offset 0 matches it), an interpolated point at 1000
blending the second and third points with ratio
(1000 − 500) / (1200 − 500) = 5/7, and the final point appended verbatim
by the post-step.  Stated for arbitrary coordinates of the three points. -/
theorem samplePointsByDistance_scenario (a1 b1 a2 b2 a3 b3 : ℚ) :
    samplePointsByDistance [⟨a1, b1, 0⟩, ⟨a2, b2, 500⟩, ⟨a3, b3, 1200⟩]
        (JsNum.num 1000) =
      [⟨a1, b1, 0⟩,
       ⟨a2 + (a3 - a2) * (5 / 7), b2 + (b3 - b2) * (5 / 7), 1000⟩,
       ⟨a3, b3, 1200⟩] := by
  have hlast : [⟨a1, b1, 0⟩, ⟨a2, b2, 500⟩, (⟨a3, b3, 1200⟩ : TrackPoint)].getLast? =
      some ⟨a3, b3, 1200⟩ := rfl
  have h := samplePointsByDistance_eq _ _ 1000 hlast (by simp) (by norm_num) _ rfl
  rw [h]
  dsimp only
  have hfuel : sampleFuel 1200 (JsNum.num 1000) = 1 + 1 + 1 := by
    rw [sampleFuel]; norm_num
  rw [hfuel]
  norm_num [sampleLoop, findFirstIdx, emitPoint, jsAdd, jsLe]

/-- C1: the claim says each output of the Time Projector carries the same
lat, lon and cumulativeDistance as its input, with only `time` added.  The
code's object literal is `{ lat, lon, time }`: `cumulativeDistance` is
dropped.  This theorem evaluates the code at the failing input — the
output value lives in `TimedPoint`, which mirrors the literal and has no
`cumulativeDistance` field at all — even though `displayWeather` later
reads `point.cumulativeDistance` from the annotated points (rendering
`NaN km` at runtime), so the claim matches the code's own downstream
expectation and the drop is a slip in the code. -/
theorem calculateTimedPoints_drops_cumulativeDistance :
    calculateTimedPoints [⟨1, 2, 15000⟩] 0 30 =
      [{ lat := 1, lon := 2, time := 1800000 }] := by
  norm_num [calculateTimedPoints]

/-- C2 (counterexample): on the empty input, `processGPX` does not fail —
the `forEach` body never runs and the empty points array is returned
normally, so no `EmptyTrackError` is raised (none exists in the code). -/
theorem processGPX_empty_concrete :
    processGPX (fun _ _ => 0) [] = [] := rfl

/-- C2 (amended): for the empty input and any distance function, the
Track Loader returns the empty list of track points; it never fails. -/
theorem processGPX_empty (dist : GeoPoint → GeoPoint → ℚ) :
    processGPX dist [] = [] := rfl

/-- C3 (counterexample): with `avgSpeedKmh = 0` the Time Projector still
produces an output sequence (here of length 1), rather than failing with
`InvalidSpeedError` — the code performs no speed validation at all. -/
theorem calculateTimedPoints_zero_speed :
    (calculateTimedPoints [⟨0, 0, 1000⟩] 0 0).length = 1 := by
  simp [calculateTimedPoints]

/-- C3 (amended): for every input sequence, start time and `avgSpeedKmh`
(including zero, negative and any other value), `calculateTimedPoints`
never fails and returns an output sequence of the same length as the
input; no `InvalidSpeedError` exists in the code. -/
theorem calculateTimedPoints_never_fails (points : List TrackPoint)
    (startTime avgSpeed : ℚ) :
    (calculateTimedPoints points startTime avgSpeed).length = points.length := by
  simp [calculateTimedPoints]

/-- C5 (counterexample): a NaN interval is not caught by the guard
(`NaN <= 0` is false in JS), so the sampling loop runs: it emits the
first point, the NaN offset increment ends the loop, and the post-step
appends the final point — the output is not the input unchanged. -/
theorem samplePointsByDistance_nan_guard :
    samplePointsByDistance [⟨0, 0, 0⟩, ⟨1, 1, 500⟩, ⟨2, 2, 1200⟩] JsNum.nan =
        [⟨0, 0, 0⟩, ⟨2, 2, 1200⟩] ∧
      samplePointsByDistance [⟨0, 0, 0⟩, ⟨1, 1, 500⟩, ⟨2, 2, 1200⟩] JsNum.nan ≠
        [⟨0, 0, 0⟩, ⟨1, 1, 500⟩, ⟨2, 2, 1200⟩] := by
  constructor
  · decide
  · decide

/-- C5 (amended): the identity fallback of the sampler covers exactly the
empty track and `intervalMeters ≤ 0` (zero or negative actual numbers);
in those cases the track's points are returned unchanged and the function
never fails.  A non-finite (NaN) interval is not covered by the guard. -/
theorem samplePointsByDistance_identity_guard (points : List TrackPoint)
    (intervalMeters : JsNum)
    (h : points = [] ∨ jsLe intervalMeters (JsNum.num 0) = true) :
    samplePointsByDistance points intervalMeters = points := by
  rw [samplePointsByDistance, if_pos]
  rcases h with h | h
  · exact Or.inl (by simp [h])
  · exact Or.inr h

/-- Witness for the amended C5 at a concrete negative interval. -/
theorem samplePointsByDistance_identity_guard_witness :
    (([⟨0, 0, 0⟩] : List TrackPoint) = [] ∨
        jsLe (JsNum.num (-5)) (JsNum.num 0) = true) ∧
      samplePointsByDistance [⟨0, 0, 0⟩] (JsNum.num (-5)) = [⟨0, 0, 0⟩] :=
  ⟨Or.inr (by decide),
    samplePointsByDistance_identity_guard _ _ (Or.inr (by decide))⟩

/-- C8: for every input, start time and positive average speed, the Time
Projector preserves length and order, and the point at each index gets
`time = startTime + (cumulativeDistance / 1000 / avgSpeedKmh) * 3600000`
milliseconds, i.e. start time plus (distance in km over speed) hours. -/
theorem calculateTimedPoints_formula (points : List TrackPoint)
    (startTime avgSpeed : ℚ) (hv : 0 < avgSpeed) :
    (calculateTimedPoints points startTime avgSpeed).length = points.length ∧
    ∀ (i : Nat) (p : TrackPoint), points[i]? = some p →
      (calculateTimedPoints points startTime avgSpeed)[i]? =
        some { lat := p.lat, lon := p.lon,
               time := startTime + p.cumulativeDistance / 1000 / avgSpeed * 3600000 } := by
  refine ⟨by simp [calculateTimedPoints], fun i p hp => ?_⟩
  simp [calculateTimedPoints, hp]

/-- Witness for C8 at the spec's concrete scenario: start time
2024-01-01T00:00:00Z (1704067200000 ms), 30 km/h, a point at 15000 m —
the projected time is 00:30:00 (1704069000000 ms). -/
theorem calculateTimedPoints_formula_witness :
    (0 : ℚ) < 30 ∧
      (calculateTimedPoints [⟨0, 0, 15000⟩] 1704067200000 30)[0]? =
        some { lat := 0, lon := 0, time := 1704069000000 } := by
  refine ⟨by norm_num, ?_⟩
  have h := (calculateTimedPoints_formula [⟨0, 0, 15000⟩] 1704067200000 30
    (by norm_num)).2 0 ⟨0, 0, 15000⟩ rfl
  rw [h]
  norm_num

/-- C9: the Weather Annotator processes points sequentially in input
order; each success contributes exactly one merged `WeatherPoint`, each
failure is omitted entirely (no placeholder, no abort), hence the output
is the input restricted to successes in order and never longer than the
input.  In the concrete five-point scenario whose lookup fails only at
index 2, the output is the other four points, order preserved. -/
theorem fetchWeatherData_filter :
    (∀ (lookup : TimedPoint → Option WeatherSample) (points : List TimedPoint),
        fetchWeatherData lookup points =
          points.filterMap (fun point => (lookup point).map (fun data =>
            { lat := point.lat, lon := point.lon, time := point.time,
              temp := data.temp, wind := data.wind, code := data.code })) ∧
        (fetchWeatherData lookup points).length ≤ points.length) ∧
      fetchWeatherData demoLookup demoTimedPoints =
        [⟨0, 0, 0, 20, 5, 1⟩, ⟨1, 1, 1, 20, 5, 1⟩,
         ⟨3, 3, 3, 20, 5, 1⟩, ⟨4, 4, 4, 20, 5, 1⟩] := by
  refine ⟨fun lookup points => ⟨fetchWeatherData_eq_filterMap lookup points, ?_⟩, by decide⟩
  rw [fetchWeatherData_eq_filterMap]
  exact List.length_filterMap_le _ _

end BikeWeather
